/-
Verification of the satyam0777/webSocket server and client coordination logic.

The server (server/server.js) keeps a module-level `activeUsers` JavaScript
Map keyed by userId, a set of connected sockets (io.sockets.sockets), and
registers per-socket handlers for `sendMessage`, `userTyping`,
`sendNotification`, `joinChatRoom`, `roomMessage`, `leaveChatRoom`,
`updateStatus`, `getActiveUsers` and `disconnect`.  The client
(client/src/hooks/useSocket.js, client/src/components/ChatComponent.jsx)
configures socket.io-client reconnection options and implements the typing
debounce in `handleInputChange`.

This file embeds those handlers shallowly: a server state is a record of the
activeUsers insertion-ordered association list and the socket list; each
handler is a pure function from state and payload to the new state together
with the list of emissions (target socket id, event) it performs, in emission
order.  `console.log` calls are I/O only and are dropped by the embedding.
-/
import Mathlib

namespace WebSocket

abbrev UserId := String
abbrev SocketId := String
abbrev RoomId := String

/-- The value stored in the `activeUsers` Map for one user
(`{ socketId, userName, email, status }` in server.js). -/
structure UserEntry where
  socketId : SocketId
  userName : String
  email : String
  status : String
deriving DecidableEq, Repr

/-- One live socket.io connection as the server sees it: the fields the auth
middleware attaches (`socket.userId`, `socket.userName`, `socket.email`),
the transport-assigned `socket.id`, and the rooms the socket has joined. -/
structure Socket where
  id : SocketId
  userId : UserId
  userName : String
  email : String
  rooms : List RoomId
deriving DecidableEq, Repr

/-! ### JavaScript `Map` semantics

`activeUsers` is a JS `Map`: `set` on an existing key updates the value in
place (keeping the key's original position in iteration order), `set` on a
fresh key appends, `delete` removes the key, and `Array.from(m.values())`
iterates in insertion order.  We model it as an insertion-ordered
association list. -/

/-- `m.set(k, v)` for a JS Map. -/
def mapSet (m : List (UserId × UserEntry)) (k : UserId) (v : UserEntry) :
    List (UserId × UserEntry) :=
  if m.any (fun p => p.1 = k) then
    m.map (fun p => if p.1 = k then (k, v) else p)
  else
    m ++ [(k, v)]

/-- `m.delete(k)` for a JS Map. -/
def mapDelete (m : List (UserId × UserEntry)) (k : UserId) :
    List (UserId × UserEntry) :=
  m.filter (fun p => ¬ p.1 = k)

/-- `m.get(k)` for a JS Map. -/
def mapGet (m : List (UserId × UserEntry)) (k : UserId) : Option UserEntry :=
  (m.find? (fun p => p.1 = k)).map (·.2)

/-- Whole server state: the `activeUsers` Map and `io.sockets.sockets`
(in connection order). -/
structure ServerState where
  activeUsers : List (UserId × UserEntry)
  sockets : List Socket
deriving DecidableEq, Repr

/-- Every event the embedded handlers emit, with the payload fields the
claims talk about. -/
inductive Event where
  | messageReceived (fromId : UserId) (fromName : String) (text : String)
  | userTyping (userId : UserId) (userName : String) (isTyping : Bool)
  | notificationReceived (fromId : UserId) (message : String) (ntype : String)
  | roomEvent (rtype : String) (userName : String)
  | roomMessageReceived (fromName : String) (text : String)
  | userConnected (userId : UserId) (userName : String) (active : List UserEntry)
  | userDisconnected (userId : UserId) (userName : String) (active : List UserEntry)
  | userStatusChanged (userId : UserId) (status : String)
  | activeUsersList (active : List UserEntry)
deriving DecidableEq, Repr

/-- One delivery: which socket receives which event. -/
structure Emission where
  target : SocketId
  event : Event
deriving DecidableEq, Repr

/-- `io.emit(ev)`: deliver to every connected socket, in socket order. -/
def ioEmit (st : ServerState) (ev : Event) : List Emission :=
  st.sockets.map (fun s => ⟨s.id, ev⟩)

/-- `socket.broadcast.emit(ev)`: every connected socket except the sender. -/
def broadcastEmit (st : ServerState) (senderId : SocketId) (ev : Event) :
    List Emission :=
  (st.sockets.filter (fun s => ¬ s.id = senderId)).map (fun s => ⟨s.id, ev⟩)

/-- `io.to(roomId).emit(ev)`: every socket currently in the room. -/
def ioTo (st : ServerState) (roomId : RoomId) (ev : Event) : List Emission :=
  (st.sockets.filter (fun s => roomId ∈ s.rooms)).map (fun s => ⟨s.id, ev⟩)

/-! ### Server event handlers (server.js) -/

/-- `socket.on('sendMessage')`: builds the message object with
`text: messageData.text` and broadcasts it to all clients with `io.emit`.
The state is not changed. -/
def sendMessage (st : ServerState) (sender : Socket) (text : String) :
    ServerState × List Emission :=
  (st, ioEmit st (.messageReceived sender.userId sender.userName text))

/-- `socket.on('userTyping')`: re-broadcasts the flag to all sockets except
the sender with `socket.broadcast.emit`. -/
def userTyping (st : ServerState) (sender : Socket) (isTyping : Bool) :
    ServerState × List Emission :=
  (st, broadcastEmit st sender.id (.userTyping sender.userId sender.userName isTyping))

/-- `socket.on('sendNotification')`: scans `io.sockets.sockets` for the first
socket whose `userId` equals `data.recipientId`; if found, emits
`notificationReceived` to that one socket; otherwise does nothing at all
(no emission, no acknowledgement to the sender). -/
def sendNotification (st : ServerState) (sender : Socket)
    (recipientId : UserId) (message ntype : String) :
    ServerState × List Emission :=
  match st.sockets.find? (fun s => s.userId = recipientId) with
  | some r => (st, [⟨r.id, .notificationReceived sender.userId message ntype⟩])
  | none => (st, [])

/-- `socket.join(roomId)` on the transport: adds the room to the socket's
room set (a no-op when already a member). -/
def socketJoin (st : ServerState) (sid : SocketId) (roomId : RoomId) :
    ServerState :=
  { st with
    sockets := st.sockets.map (fun s =>
      if s.id = sid then
        if roomId ∈ s.rooms then s else { s with rooms := s.rooms ++ [roomId] }
      else s) }

/-- `socket.on('joinChatRoom')`: `socket.join(roomId)` first, then
`io.to(roomId).emit('roomEvent', …)` — so the broadcast goes to the room's
membership after the join, which contains the joiner. -/
def joinChatRoom (st : ServerState) (sender : Socket) (roomId : RoomId) :
    ServerState × List Emission :=
  let st1 := socketJoin st sender.id roomId
  (st1, ioTo st1 roomId (.roomEvent "userJoined" sender.userName))

/-- The payload decoded from the bearer token by the mock
`jwt.decode(token)`. -/
structure Decoded where
  userId : UserId
  userName : String
  email : String
deriving DecidableEq, Repr

/-- `io.use` auth middleware: missing token, or a token the decoder cannot
decode, fails with an `Error` passed to `next`; success attaches the decoded
identity fields to the socket.  `decode` abstracts `jwt.decode`. -/
def authMiddleware (decode : String → Option Decoded)
    (token : Option String) : Except String Decoded :=
  match token with
  | none => .error "Authentication error: No token provided"
  | some t =>
    match decode t with
    | none => .error "Authentication failed: Invalid token"
    | some d => .ok d

/-- `io.on('connection')` body up to the handler registrations: admits the
socket, stores `{socketId, userName, email, status:'online'}` in
`activeUsers` under the userId, and emits `userConnected` to everyone. -/
def handleConnection (st : ServerState) (d : Decoded) (sid : SocketId) :
    ServerState × List Emission :=
  let au := mapSet st.activeUsers d.userId ⟨sid, d.userName, d.email, "online"⟩
  let st1 : ServerState := ⟨au, st.sockets ++ [⟨sid, d.userId, d.userName, d.email, []⟩]⟩
  (st1, ioEmit st1 (.userConnected d.userId d.userName (au.map (·.2))))

/-- A whole connection attempt: the auth middleware runs before the
connection handler; if it fails, the connection is rejected and the handler
never runs — the state is untouched and nothing is emitted. -/
def attemptConnection (decode : String → Option Decoded) (st : ServerState)
    (token : Option String) (sid : SocketId) :
    ServerState × List Emission × Option String :=
  match authMiddleware decode token with
  | .error e => (st, [], some e)
  | .ok d =>
    let (st1, ems) := handleConnection st d sid
    (st1, ems, none)

/-- `socket.on('disconnect')`: deletes `activeUsers[socket.userId]`
unconditionally (no check that the stored entry's socketId is the
disconnecting socket's), the transport removes the socket, and
`userDisconnected` is emitted to the remaining sockets. -/
def handleDisconnect (st : ServerState) (sock : Socket) :
    ServerState × List Emission :=
  let au := mapDelete st.activeUsers sock.userId
  let st1 : ServerState := ⟨au, st.sockets.filter (fun s => ¬ s.id = sock.id)⟩
  (st1, ioEmit st1 (.userDisconnected sock.userId sock.userName (au.map (·.2))))

/-! ### Client-side typing debounce (ChatComponent.jsx, `handleInputChange`)

`typingTimeoutRef` holds the outstanding countdown timer (or `null`).  A
keystroke emits `isTyping=true` only when no timer is outstanding, then
clears and restarts a 2000 ms countdown; when the countdown fires it emits
`isTyping=false` and nulls the ref.  We model the ref as
`Option Nat` (remaining milliseconds) and time passing as `elapse`. -/

/-- The debounce window set by `setTimeout(…, 2000)`. -/
def debounceWindow : ℕ := 2000

/-- The client typing state: `typingTimeoutRef.current`, as the remaining
time on the outstanding countdown, if any. -/
structure TypingState where
  timer : Option ℕ
deriving DecidableEq, Repr

/-- One `handleInputChange` call: emit `isTyping=true` iff the timer ref is
null, then (re)start the countdown at the full window. -/
def keystroke (s : TypingState) : TypingState × List Bool :=
  match s.timer with
  | none => (⟨some debounceWindow⟩, [true])
  | some _ => (⟨some debounceWindow⟩, [])

/-- `t` milliseconds pass with no keystroke: the countdown fires exactly when
it reaches zero, emitting `isTyping=false` and clearing the ref. -/
def elapse (t : ℕ) (s : TypingState) : TypingState × List Bool :=
  match s.timer with
  | none => (s, [])
  | some r => if r ≤ t then (⟨none⟩, [false]) else (⟨some (r - t)⟩, [])

/-- Run a burst: an initial keystroke, then for each listed gap `g`, let `g`
milliseconds pass and hit another keystroke.  Returns the final state and
all emissions in order. -/
def runBurst (s : TypingState) (gaps : List ℕ) : TypingState × List Bool :=
  match gaps with
  | [] => keystroke s
  | g :: rest =>
    let k := keystroke s
    let e := elapse g k.1
    let r := runBurst e.1 rest
    (r.1, k.2 ++ e.2 ++ r.2)

/-! ### Client connection supervisor (useSocket.js)

The hook configures socket.io-client with `reconnection: true,
reconnectionDelay: 1000, reconnectionDelayMax: 5000,
reconnectionAttempts: 5` and returns `reconnect: () =>
socketRef.current?.connect()`.  The retry loop itself lives in the
socket.io-client transport, outside this repository's sources; it is
modelled from the spec below and instantiated with the options the hook
passes. -/

/-- The reconnection options object the hook passes to `io(SOCKET_URL, …)`. -/
structure SocketOptions where
  reconnection : Bool
  reconnectionDelay : ℕ
  reconnectionDelayMax : ℕ
  reconnectionAttempts : ℕ
deriving DecidableEq, Repr

/-- The concrete options from useSocket.js. -/
def useSocketOptions : SocketOptions :=
  { reconnection := true
  , reconnectionDelay := 1000
  , reconnectionDelayMax := 5000
  , reconnectionAttempts := 5 }

/-- Modelled from the spec: the delay before retry number `n` (0-based) of a
reconnection episode — capped exponential backoff starting at
`reconnectionDelay` and clipped at `reconnectionDelayMax` (the transport's
randomization factor is omitted; the spec describes the deterministic
"capped exponential-ish" schedule). -/
def retryDelay (o : SocketOptions) (n : ℕ) : ℕ :=
  min (o.reconnectionDelay * 2 ^ n) o.reconnectionDelayMax

/-- The supervisor's connection states (spec §4.6). -/
inductive SupState where
  | active
  | reconnecting (attempt : ℕ)
  | disconnectedPermanent
  | disconnected
deriving DecidableEq, Repr

/-- External happenings the supervisor reacts to. -/
inductive SupEvent where
  | transportLost
  | attemptFails
  | attemptSucceeds
  | manualReconnect
deriving DecidableEq, Repr

/-- Modelled from the spec: one supervisor transition.  The retry loop of
socket.io-client is not part of this repository's sources; the spec says
transport loss starts retrying, each failed attempt schedules the next until
`reconnectionAttempts` are exhausted, exhaustion stops all retrying, and
only the hook's explicit `reconnect()` creates a further attempt.  The
returned Bool is whether this transition initiates a connection attempt. -/
def supStep (o : SocketOptions) (s : SupState) (e : SupEvent) :
    SupState × Bool :=
  match s, e with
  | .active, .transportLost => (.reconnecting 0, true)
  | .reconnecting k, .attemptFails =>
    if k + 1 < o.reconnectionAttempts then (.reconnecting (k + 1), true)
    else (.disconnectedPermanent, false)
  | .reconnecting _, .attemptSucceeds => (.active, false)
  | .disconnectedPermanent, .manualReconnect => (.reconnecting 0, true)
  | s, _ => (s, false)

/-- Run the supervisor over an event trace, counting initiated connection
attempts. -/
def supRunCount (o : SocketOptions) : SupState → List SupEvent → ℕ
  | _, [] => 0
  | s, e :: rest =>
    (if (supStep o s e).2 then 1 else 0) + supRunCount o (supStep o s e).1 rest

/-- Attempt budget of a state within one reconnection episode. -/
def supBudget (o : SocketOptions) : SupState → ℕ
  | .active => o.reconnectionAttempts
  | .reconnecting k => o.reconnectionAttempts - 1 - k
  | .disconnectedPermanent => 0
  | .disconnected => 0

/-! ### Observation helpers and concrete fixtures -/

/-- The stream of events a given socket observes from a list of emissions,
in delivery order. -/
def inbox (ems : List Emission) (sid : SocketId) : List Event :=
  (ems.filter (fun em => em.target = sid)).map (·.event)

/-- The router processes a sequence of `sendMessage` events to completion,
one at a time; emissions accumulate in processing order. -/
def processMessages (st : ServerState) :
    List (Socket × String) → ServerState × List Emission
  | [] => (st, [])
  | (sender, text) :: rest =>
    let (st1, e1) := sendMessage st sender text
    let (st2, e2) := processMessages st1 rest
    (st2, e1 ++ e2)

/-- Whether an event is the `userConnected` presence broadcast. -/
def isUserConnected : Event → Bool
  | .userConnected _ _ _ => true
  | _ => false

/-- Fixture socket: Alice on socket "s1", member of room "general". -/
def aliceSock : Socket := ⟨"s1", "u1", "Alice", "alice@x", ["general"]⟩

/-- Fixture socket: Bob on socket "s2", member of no room. -/
def bobSock : Socket := ⟨"s2", "u2", "Bob", "bob@x", []⟩

/-- Fixture registry entry for Alice on socket "s1". -/
def aliceEntry : UserEntry := ⟨"s1", "Alice", "alice@x", "online"⟩

/-- Fixture registry entry for Bob on socket "s2". -/
def bobEntry : UserEntry := ⟨"s2", "Bob", "bob@x", "online"⟩

/-- Fixture server state: Alice and Bob connected, Alice in "general". -/
def twoUserState : ServerState :=
  ⟨[("u1", aliceEntry), ("u2", bobEntry)], [aliceSock, bobSock]⟩

/-- Fixture server state: only Alice connected. -/
def oneUserState : ServerState := ⟨[("u1", aliceEntry)], [aliceSock]⟩

/-! ### Shared lemmas -/

/-- In a socket list with pairwise-distinct ids, filtering on the id of a
member yields exactly that member. -/
theorem filter_id_eq_single (l : List Socket) (c : Socket)
    (hnd : (l.map Socket.id).Nodup) (hc : c ∈ l) :
    l.filter (fun s => s.id = c.id) = [c] := by
  induction l with
  | nil => exact absurd hc (List.not_mem_nil c)
  | cons s t ih =>
    simp only [List.map_cons, List.nodup_cons] at hnd
    rcases List.mem_cons.mp hc with rfl | hct
    · have ht : t.filter (fun x => x.id = c.id) = [] := by
        rw [List.filter_eq_nil_iff]
        intro x hx
        simp only [decide_eq_true_eq]
        intro hxe
        exact hnd.1 (hxe ▸ List.mem_map_of_mem Socket.id hx)
      rw [List.filter_cons_of_pos (by simp), ht]
    · have hne : ¬ c.id = s.id := by
        intro he
        exact hnd.1 (he ▸ List.mem_map_of_mem Socket.id hct)
      rw [List.filter_cons_of_neg (by simpa using fun h => hne h.symm)]
      exact ih hnd.2 hct

/-- `inbox` distributes over appended emission lists. -/
theorem inbox_append (a b : List Emission) (sid : SocketId) :
    inbox (a ++ b) sid = inbox a sid ++ inbox b sid := by
  simp [inbox]

/-- The inbox of a list of same-event emissions is one copy of the event per
matching socket. -/
theorem inbox_map_mk (l : List Socket) (ev : Event) (sid : SocketId) :
    inbox (l.map (fun s => Emission.mk s.id ev)) sid =
      (l.filter (fun s => s.id = sid)).map (fun _ => ev) := by
  induction l with
  | nil => rfl
  | cons s t ih =>
    by_cases h : s.id = sid <;>
      simp [inbox, List.filter_cons, h] <;>
      simpa [inbox] using ih

/-- A connected socket observes a full broadcast exactly once. -/
theorem inbox_ioEmit (st : ServerState) (c : Socket) (ev : Event)
    (hnd : (st.sockets.map Socket.id).Nodup) (hc : c ∈ st.sockets) :
    inbox (ioEmit st ev) c.id = [ev] := by
  show inbox (st.sockets.map (fun s => Emission.mk s.id ev)) c.id = [ev]
  rw [inbox_map_mk, filter_id_eq_single st.sockets c hnd hc]
  rfl

/-! ### Claim theorems -/

/-- C1: for every sequence of valid `sendMessage` events, every connected
socket observes exactly one `messageReceived` per send, with the sender's
text unchanged, in router-processing order. -/
theorem sendMessage_delivers_in_order (st : ServerState)
    (evts : List (Socket × String)) (c : Socket)
    (hnd : (st.sockets.map Socket.id).Nodup) (hc : c ∈ st.sockets) :
    inbox (processMessages st evts).2 c.id =
      evts.map (fun p => Event.messageReceived p.1.userId p.1.userName p.2) := by
  induction evts with
  | nil => rfl
  | cons p rest ih =>
    obtain ⟨sender, text⟩ := p
    show inbox (ioEmit st (.messageReceived sender.userId sender.userName text)
        ++ (processMessages st rest).2) c.id = _
    rw [inbox_append, inbox_ioEmit st c _ hnd hc, ih]
    rfl

/-- C1 witness: in the two-user fixture, Bob's inbox after two sends is
exactly the two texts in processing order. -/
theorem sendMessage_delivers_in_order_witness :
    inbox (processMessages twoUserState [(aliceSock, "hi"), (bobSock, "yo")]).2
        bobSock.id =
      [Event.messageReceived "u1" "Alice" "hi",
       Event.messageReceived "u2" "Bob" "yo"] :=
  sendMessage_delivers_in_order twoUserState [(aliceSock, "hi"), (bobSock, "yo")]
    bobSock (by decide) (by decide)

/-- C2 counterexample: with only Alice connected, a notification addressed
to the absent "u2" produces no emission at all — in particular nothing is
sent back to the caller, so no Undeliverable outcome is yielded to it,
contradicting the claim as stated. -/
theorem sendNotification_silent_drop_cex :
    oneUserState.sockets.find? (fun s => s.userId = "u2") = none ∧
    (sendNotification oneUserState aliceSock "u2" "hi" "info").2 = [] := by
  decide

/-- C2 amended: if the recipient is absent from the connected sockets the
event is dropped silently — no `notificationReceived` is observed by any
connection and no outcome is reported to the caller; if present, exactly
one recipient socket observes exactly one `notificationReceived`. -/
theorem sendNotification_amended (st : ServerState) (sender : Socket)
    (rid : UserId) (msg ty : String) :
    ((∀ s ∈ st.sockets, ¬ s.userId = rid) →
      (sendNotification st sender rid msg ty).2 = []) ∧
    (∀ r, st.sockets.find? (fun s => s.userId = rid) = some r →
      r ∈ st.sockets ∧ r.userId = rid ∧
      (sendNotification st sender rid msg ty).2 =
        [⟨r.id, .notificationReceived sender.userId msg ty⟩]) := by
  constructor
  · intro h
    have hn : st.sockets.find? (fun s => s.userId = rid) = none := by
      rw [List.find?_eq_none]
      intro x hx
      simpa using h x hx
    simp [sendNotification, hn]
  · intro r hr
    refine ⟨List.mem_of_find?_eq_some hr, ?_, ?_⟩
    · simpa using List.find?_some hr
    · simp [sendNotification, hr]

/-- C2 witness: absent recipient → no emission; present recipient → the
single emission to Bob's socket. -/
theorem sendNotification_amended_witness :
    (sendNotification oneUserState aliceSock "u2" "m" "info").2 = [] ∧
    (sendNotification twoUserState aliceSock "u2" "m" "info").2 =
      [⟨"s2", .notificationReceived "u1" "m" "info"⟩] :=
  ⟨(sendNotification_amended oneUserState aliceSock "u2" "m" "info").1 (by decide),
   ((sendNotification_amended twoUserState aliceSock "u2" "m" "info").2
      bobSock (by decide)).2.2⟩

/-- C3 counterexample: when "u1" is already registered, `register("u1")`
followed by `deregister("u1")` empties the registry instead of restoring
the prior snapshot `[("u1", aliceEntry)]`. -/
theorem register_deregister_cex :
    mapDelete (mapSet [("u1", aliceEntry)] "u1" bobEntry) "u1" = [] ∧
    ¬ ([] : List (UserId × UserEntry)) = [("u1", aliceEntry)] := by
  decide

/-- C3 amended: if the Identity is not already registered,
register-then-deregister restores the snapshot; register preserves
key-uniqueness of the snapshot; and a second register for an
already-registered Identity replaces the entry in place, leaving the entry
count unchanged. -/
theorem register_deregister_amended (m : List (UserId × UserEntry))
    (k : UserId) (v : UserEntry) :
    (¬ k ∈ m.map Prod.fst → mapDelete (mapSet m k v) k = m) ∧
    ((m.map Prod.fst).Nodup → ((mapSet m k v).map Prod.fst).Nodup) ∧
    (k ∈ m.map Prod.fst → (mapSet m k v).length = m.length) := by
  refine ⟨?_, ?_, ?_⟩
  · intro hk
    have ha : m.any (fun p => p.1 = k) = false := by
      rw [List.any_eq_false]
      intro p hp
      simp only [decide_eq_true_eq]
      intro he
      exact hk (he ▸ List.mem_map_of_mem Prod.fst hp)
    simp only [mapSet, ha, Bool.false_eq_true, if_false, mapDelete,
      List.filter_append]
    simp only [List.filter_cons, List.filter_nil]
    simp
    intro a b hab he
    exact hk (he ▸ List.mem_map_of_mem Prod.fst hab)
  · intro hnd
    by_cases ha : m.any (fun p => p.1 = k) = true
    · have : (m.map (fun p => if p.1 = k then (k, v) else p)).map Prod.fst
          = m.map Prod.fst := by
        rw [List.map_map]
        apply List.map_congr_left
        intro p _
        by_cases hp : p.1 = k <;> simp [hp]
      simp only [mapSet, ha, if_true]
      rw [this]
      exact hnd
    · have hk : ¬ k ∈ m.map Prod.fst := by
        intro hmem
        obtain ⟨p, hp, hpe⟩ := List.mem_map.mp hmem
        exact ha (List.any_eq_true.mpr ⟨p, hp, by simpa using hpe⟩)
      simp [mapSet, ha, List.nodup_append, hnd, List.disjoint_singleton, hk]
  · intro hk
    have ha : m.any (fun p => p.1 = k) = true := by
      rw [List.any_eq_true]
      obtain ⟨p, hp, hpe⟩ := List.mem_map.mp hk
      exact ⟨p, hp, by simpa using hpe⟩
    simp [mapSet, ha]

/-- C3 witness: fresh-key register/deregister round-trips on a concrete
registry, and re-registering an existing key keeps the entry count at 1. -/
theorem register_deregister_amended_witness :
    mapDelete (mapSet [("u1", aliceEntry)] "u2" bobEntry) "u2"
      = [("u1", aliceEntry)] ∧
    (mapSet [("u1", aliceEntry)] "u1" bobEntry).length = 1 :=
  ⟨(register_deregister_amended [("u1", aliceEntry)] "u2" bobEntry).1 (by decide),
   (register_deregister_amended [("u1", aliceEntry)] "u1" bobEntry).2.2 (by decide)⟩

/-- C4: a handshake whose credential fails the auth middleware (missing or
undecodable token) is rejected with the auth error, and the server state is
exactly as before: no registry entry, no socket, no emission. -/
theorem auth_failure_atomic (decode : String → Option Decoded)
    (st : ServerState) (tok : Option String) (sid : SocketId) (e : String)
    (h : authMiddleware decode tok = .error e) :
    attemptConnection decode st tok sid = (st, [], some e) := by
  simp [attemptConnection, h]

/-- C4 witness: a missing token is rejected and the one-user state is
untouched. -/
theorem auth_failure_atomic_witness :
    attemptConnection (fun _ => none) oneUserState none "s9"
      = (oneUserState, [], some "Authentication error: No token provided") :=
  auth_failure_atomic (fun _ => none) oneUserState none "s9"
    "Authentication error: No token provided" rfl

/-- While a countdown is outstanding, a burst whose gaps are all inside the
window emits nothing and leaves a freshly restarted countdown. -/
theorem runBurst_from_armed : ∀ (gaps : List ℕ),
    (∀ g ∈ gaps, g < debounceWindow) → ∀ r : ℕ,
    runBurst ⟨some r⟩ gaps = (⟨some debounceWindow⟩, [])
  | [], _, _ => rfl
  | g :: rest, h, r => by
    have hg : g < debounceWindow := h g (List.mem_cons_self g rest)
    have ih := runBurst_from_armed rest
      (fun x hx => h x (List.mem_cons_of_mem g hx)) (debounceWindow - g)
    simp only [runBurst, keystroke, elapse]
    rw [if_neg (by omega)]
    simp [ih]

/-- C5: a burst of `N = gaps.length + 1 ≥ 1` keystrokes whose gaps are all
shorter than the 2000 ms debounce window emits exactly one `isTyping=true`
(on the first keystroke) and nothing else; once the window elapses past the
last keystroke, exactly one `isTyping=false` is emitted and the countdown
timer is cleared. -/
theorem typing_debounce_burst (gaps : List ℕ)
    (h : ∀ g ∈ gaps, g < debounceWindow) (t : ℕ)
    (ht : debounceWindow ≤ t) :
    (runBurst ⟨none⟩ gaps).2 = [true] ∧
    elapse t (runBurst ⟨none⟩ gaps).1 = (⟨none⟩, [false]) := by
  have hfin : runBurst ⟨none⟩ gaps = (⟨some debounceWindow⟩, [true]) := by
    cases gaps with
    | nil => rfl
    | cons g rest =>
      have hg : g < debounceWindow := h g (List.mem_cons_self g rest)
      have ih := runBurst_from_armed rest
        (fun x hx => h x (List.mem_cons_of_mem g hx)) (debounceWindow - g)
      simp only [runBurst, keystroke, elapse]
      rw [if_neg (by omega)]
      simp [ih]
  rw [hfin]
  exact ⟨rfl, by simp [elapse, ht]⟩

/-- C5 witness: a 3-keystroke burst with gaps 500 and 1999 ms, then 2000 ms
of silence. -/
theorem typing_debounce_burst_witness :
    (runBurst ⟨none⟩ [500, 1999]).2 = [true] ∧
    elapse 2000 (runBurst ⟨none⟩ [500, 1999]).1 = (⟨none⟩, [false]) :=
  typing_debounce_burst [500, 1999] (by decide) 2000 (by decide)

/-- C6 counterexample: Bob is in no room, yet he receives Alice's typing
event — `socket.broadcast.emit` is not room-scoped, contradicting the claim
that connections outside the sender's room receive nothing. -/
theorem userTyping_global_cex :
    ¬ "general" ∈ bobSock.rooms ∧
    Emission.mk bobSock.id (.userTyping "u1" "Alice" true)
      ∈ (userTyping twoUserState aliceSock true).2 := by
  decide

/-- C6 amended: the typing broadcast goes to every connected socket except
the sender, regardless of rooms: each non-sender socket observes it exactly
once and the sender never receives its own typing event. -/
theorem userTyping_amended (st : ServerState) (sender c : Socket) (b : Bool)
    (hnd : (st.sockets.map Socket.id).Nodup)
    (hc : c ∈ st.sockets) (hne : ¬ c.id = sender.id) :
    inbox (userTyping st sender b).2 c.id =
      [Event.userTyping sender.userId sender.userName b] ∧
    ∀ em ∈ (userTyping st sender b).2, ¬ em.target = sender.id := by
  constructor
  · have hsub : List.Sublist
        ((st.sockets.filter (fun s => ¬ s.id = sender.id)).map Socket.id)
        (st.sockets.map Socket.id) :=
      (List.filter_sublist st.sockets).map Socket.id
    have hnd' := hnd.sublist hsub
    have hc' : c ∈ st.sockets.filter (fun s => ¬ s.id = sender.id) :=
      List.mem_filter.mpr ⟨hc, by simpa using hne⟩
    show inbox ((st.sockets.filter (fun s => ¬ s.id = sender.id)).map
        (fun s => Emission.mk s.id (.userTyping sender.userId sender.userName b)))
        c.id = _
    rw [inbox_map_mk, filter_id_eq_single _ c hnd' hc']
    rfl
  · intro em hem
    obtain ⟨s, hs, rfl⟩ := List.mem_map.mp hem
    have := (List.mem_filter.mp hs).2
    simpa using this

/-- C6 witness: Bob (not the sender) observes Alice's typing event exactly
once, and no emission targets Alice. -/
theorem userTyping_amended_witness :
    inbox (userTyping twoUserState aliceSock true).2 bobSock.id =
      [Event.userTyping "u1" "Alice" true] ∧
    ∀ em ∈ (userTyping twoUserState aliceSock true).2,
      ¬ em.target = aliceSock.id :=
  userTyping_amended twoUserState aliceSock bobSock true
    (by decide) (by decide) (by decide)

/-- C7 counterexample: admitting Bob into the one-user state fires the
presence broadcast (the emission list is non-empty) yet every emission is a
`userConnected` event — no pending notification is flushed to the new
client before (or after) the broadcast, contradicting the claim whenever
the persistence collaborator holds a pending notification for Bob. -/
theorem register_no_flush_cex :
    ((handleConnection oneUserState ⟨"u2", "Bob", "bob@x"⟩ "s2").2.all
      (fun em => isUserConnected em.event)) = true ∧
    ¬ (handleConnection oneUserState ⟨"u2", "Bob", "bob@x"⟩ "s2").2 = [] := by
  decide

/-- C7 amended: on register, the connection handler emits only the
`userConnected` presence broadcast; no pending-notification flush occurs at
all (the server contacts no persistence collaborator). -/
theorem register_no_flush_amended (st : ServerState) (d : Decoded)
    (sid : SocketId) :
    ((handleConnection st d sid).2.all
      (fun em => isUserConnected em.event)) = true := by
  simp only [handleConnection, ioEmit, List.all_eq_true]
  intro em hem
  obtain ⟨s, _, rfl⟩ := List.mem_map.mp hem
  rfl

/-- C8: `joinChatRoom` broadcasts the room-joined event to the room's
membership as it stands after `socket.join`, and the joiner is among the
recipients of its own room-joined event. -/
theorem joinChatRoom_self_delivery (st : ServerState) (sender : Socket)
    (roomId : RoomId) (hs : sender ∈ st.sockets) :
    (joinChatRoom st sender roomId).2.map Emission.target =
      ((socketJoin st sender.id roomId).sockets.filter
        (fun s => roomId ∈ s.rooms)).map Socket.id ∧
    Emission.mk sender.id (.roomEvent "userJoined" sender.userName)
      ∈ (joinChatRoom st sender roomId).2 := by
  constructor
  · show (ioTo (socketJoin st sender.id roomId) roomId
        (.roomEvent "userJoined" sender.userName)).map Emission.target = _
    simp [ioTo, List.map_map, Function.comp_def]
  · have hmem : ∃ s' ∈ (socketJoin st sender.id roomId).sockets,
        s'.id = sender.id ∧ roomId ∈ s'.rooms := by
      by_cases hr : roomId ∈ sender.rooms
      · refine ⟨sender, ?_, rfl, hr⟩
        have := List.mem_map_of_mem (fun s : Socket =>
          if s.id = sender.id then
            if roomId ∈ s.rooms then s else { s with rooms := s.rooms ++ [roomId] }
          else s) hs
        simpa [socketJoin, hr] using this
      · refine ⟨{ sender with rooms := sender.rooms ++ [roomId] }, ?_, rfl, by simp⟩
        have := List.mem_map_of_mem (fun s : Socket =>
          if s.id = sender.id then
            if roomId ∈ s.rooms then s else { s with rooms := s.rooms ++ [roomId] }
          else s) hs
        simpa [socketJoin, hr] using this
    obtain ⟨s', hs', hid, hrm⟩ := hmem
    have hmem2 : Emission.mk s'.id (.roomEvent "userJoined" sender.userName)
        ∈ ioTo (socketJoin st sender.id roomId) roomId
          (.roomEvent "userJoined" sender.userName) :=
      List.mem_map_of_mem _ (List.mem_filter.mpr ⟨hs', by simpa using hrm⟩)
    rw [hid] at hmem2
    exact hmem2

/-- C8 witness: Bob joins "general" (where Alice already is) and receives
his own room-joined event. -/
theorem joinChatRoom_self_delivery_witness :
    (joinChatRoom twoUserState bobSock "general").2.map Emission.target =
      ((socketJoin twoUserState bobSock.id "general").sockets.filter
        (fun s => "general" ∈ s.rooms)).map Socket.id ∧
    Emission.mk bobSock.id (.roomEvent "userJoined" "Bob")
      ∈ (joinChatRoom twoUserState bobSock "general").2 :=
  joinChatRoom_self_delivery twoUserState bobSock "general" (by decide)

/-- One supervisor step spends at most the attempt budget of its source
state, as long as the step is neither a successful attempt nor an explicit
manual reconnect. -/
theorem supStep_budget (o : SocketOptions) (ho : 1 ≤ o.reconnectionAttempts)
    (s : SupState) (e : SupEvent)
    (hm : ¬ e = SupEvent.manualReconnect)
    (hs : ¬ e = SupEvent.attemptSucceeds) :
    (if (supStep o s e).2 then 1 else 0) + supBudget o (supStep o s e).1
      ≤ supBudget o s := by
  cases s with
  | active =>
    cases e with
    | transportLost => simp [supStep, supBudget]; omega
    | attemptFails => simp [supStep, supBudget]
    | attemptSucceeds => exact absurd rfl hs
    | manualReconnect => exact absurd rfl hm
  | reconnecting k =>
    cases e with
    | transportLost => simp [supStep, supBudget]
    | attemptFails =>
      by_cases hk : k + 1 < o.reconnectionAttempts
      · simp [supStep, supBudget, hk]
        omega
      · simp [supStep, supBudget, hk]
    | attemptSucceeds => exact absurd rfl hs
    | manualReconnect => exact absurd rfl hm
  | disconnectedPermanent =>
    cases e with
    | transportLost => simp [supStep, supBudget]
    | attemptFails => simp [supStep, supBudget]
    | attemptSucceeds => exact absurd rfl hs
    | manualReconnect => exact absurd rfl hm
  | disconnected =>
    cases e with
    | transportLost => simp [supStep, supBudget]
    | attemptFails => simp [supStep, supBudget]
    | attemptSucceeds => exact absurd rfl hs
    | manualReconnect => exact absurd rfl hm

/-- Over any trace without successes and without manual reconnects, the
number of initiated attempts is bounded by the source state's budget. -/
theorem supRunCount_le_budget (o : SocketOptions)
    (ho : 1 ≤ o.reconnectionAttempts) :
    ∀ (evs : List SupEvent) (s : SupState),
    (∀ e ∈ evs, ¬ e = SupEvent.manualReconnect) →
    (∀ e ∈ evs, ¬ e = SupEvent.attemptSucceeds) →
    supRunCount o s evs ≤ supBudget o s
  | [], s, _, _ => by simp [supRunCount]
  | e :: rest, s, hm, hs => by
    have h1 := supStep_budget o ho s e
      (hm e (List.mem_cons_self e rest)) (hs e (List.mem_cons_self e rest))
    have h2 := supRunCount_le_budget o ho rest (supStep o s e).1
      (fun x hx => hm x (List.mem_cons_of_mem e hx))
      (fun x hx => hs x (List.mem_cons_of_mem e hx))
    simp only [supRunCount]
    omega

/-- C9: with the options useSocket.js passes to the transport, any trace of
transport losses and failed attempts (no success, no explicit reconnect)
initiates at most `reconnectionAttempts = 5` connection attempts; once in
`DisconnectedPermanent`, no event other than the explicit manual reconnect
initiates an attempt or changes the state; and the retry delays are
nondecreasing and capped at `reconnectionDelayMax = 5000`. -/
theorem reconnect_bounded (evs : List SupEvent)
    (hm : ∀ e ∈ evs, ¬ e = SupEvent.manualReconnect)
    (hs : ∀ e ∈ evs, ¬ e = SupEvent.attemptSucceeds)
    (n m : ℕ) (hnm : n ≤ m) :
    supRunCount useSocketOptions .active evs
      ≤ useSocketOptions.reconnectionAttempts ∧
    (∀ e, ¬ e = SupEvent.manualReconnect →
      supStep useSocketOptions .disconnectedPermanent e
        = (.disconnectedPermanent, false)) ∧
    retryDelay useSocketOptions n ≤ retryDelay useSocketOptions m ∧
    retryDelay useSocketOptions m ≤ useSocketOptions.reconnectionDelayMax := by
  refine ⟨?_, ?_, ?_, ?_⟩
  · exact supRunCount_le_budget useSocketOptions (by decide) evs .active hm hs
  · intro e he
    cases e with
    | transportLost => rfl
    | attemptFails => rfl
    | attemptSucceeds => rfl
    | manualReconnect => exact absurd rfl he
  · exact min_le_min
      (Nat.mul_le_mul_left _ (Nat.pow_le_pow_right (by norm_num) hnm))
      (le_refl _)
  · exact min_le_right _ _

/-- C9 witness: a full exhaustion trace (one loss, five failed attempts)
initiates at most five attempts, and delays 1 and 3 are ordered and capped. -/
theorem reconnect_bounded_witness :
    supRunCount useSocketOptions .active
        [.transportLost, .attemptFails, .attemptFails, .attemptFails,
         .attemptFails, .attemptFails]
      ≤ useSocketOptions.reconnectionAttempts ∧
    (∀ e, ¬ e = SupEvent.manualReconnect →
      supStep useSocketOptions .disconnectedPermanent e
        = (.disconnectedPermanent, false)) ∧
    retryDelay useSocketOptions 1 ≤ retryDelay useSocketOptions 3 ∧
    retryDelay useSocketOptions 3 ≤ useSocketOptions.reconnectionDelayMax :=
  reconnect_bounded
    [.transportLost, .attemptFails, .attemptFails, .attemptFails,
     .attemptFails, .attemptFails]
    (by decide) (by decide) 1 3 (by decide)

/-- Looking up a key right after its JS-Map delete yields nothing. -/
theorem mapGet_mapDelete (m : List (UserId × UserEntry)) (k : UserId) :
    mapGet (mapDelete m k) k = none := by
  have h : (mapDelete m k).find? (fun p => p.1 = k) = none := by
    rw [List.find?_eq_none]
    intro p hp
    have h2 := (List.mem_filter.mp hp).2
    simpa using h2
  simp [mapGet, h]

/-- C10: the disconnect handler deletes the registry entry keyed by the
disconnecting socket's userId unconditionally — for every state the lookup
after disconnect is `none`, whatever socketId the stored entry held; and in
the concrete double-connection scenario ("u" connects via "s1", then via
"s2", then "s1" disconnects) the user is removed from the registry and
broadcast offline to the surviving socket while "s2" is still connected. -/
theorem disconnect_unconditional_delete :
    (∀ (st : ServerState) (sock : Socket),
      mapGet (handleDisconnect st sock).1.activeUsers sock.userId = none) ∧
    (mapGet (handleConnection (handleConnection ⟨[], []⟩
        ⟨"u", "Alice", "a@x"⟩ "s1").1 ⟨"u", "Alice", "a@x"⟩ "s2").1.activeUsers
        "u" = some ⟨"s2", "Alice", "a@x", "online"⟩ ∧
     handleDisconnect (handleConnection (handleConnection ⟨[], []⟩
        ⟨"u", "Alice", "a@x"⟩ "s1").1 ⟨"u", "Alice", "a@x"⟩ "s2").1
        ⟨"s1", "u", "Alice", "a@x", []⟩ =
       (⟨[], [⟨"s2", "u", "Alice", "a@x", []⟩]⟩,
        [⟨"s2", .userDisconnected "u" "Alice" []⟩])) := by
  refine ⟨fun st sock => mapGet_mapDelete st.activeUsers sock.userId, ?_⟩
  decide

end WebSocket
